import Mathlib

/-!
Verification of the Skill-Swap server's business logic.

This file is a shallow embedding of the repository's Express route handlers
and Mongoose schemas into Lean 4:

* `src/server/database/init.js` — the Mongoose schemas (including the
  `swapRequestSchema.status` enum) become Lean structures and the
  `statusEnum` list; a `save` with enum validation is modelled by
  `saveSwap`, which persists only statuses admitted by the schema and
  otherwise reports the caught mongoose `ValidationError` as a 500
  (`ApiError.serverError`), exactly as the route's `catch` block does.
* `src/server/Routes/swaps.js` — two router modules are present in the
  source: the module wired to `../database/init` (soft cancel via
  `PUT /swaps/:swapId/cancel`, and a rate endpoint that references a
  `Rating` model which that module never imports), and the module wired to
  `../models/*` (hard-delete cancel via `DELETE /swaps/:swapId`, and a
  complete rate endpoint).  Both are embedded: `cancelSwap` / `deleteSwap`
  and `rateSwapModuleA` / `rateSwap`.
* `src/server/Routes/admin.js` — `GET /admin/stats` (`getStats`),
  `GET /users/browse` (`browse`), and the offered-skill association
  endpoints (`addOfferedSkill`, `removeOfferedSkill`).

Conventions: MongoDB ObjectIds are modelled as `Nat`; fresh ids are drawn
from `DB.nextId` (MongoDB never reuses an `_id`, so all stored ids are
below `nextId` in well-formed states).  `$regex`/`$options:'i'` searches
on plain patterns are case-insensitive substring tests (`containsCI`).
Every handler returns `Except ApiError …`; an `error` result corresponds
to an HTTP error response issued before any write is persisted, so an
`error` never changes the database — this mirrors the handlers, whose one
write is the final statement of the success path.
Authentication middleware (`authenticateToken`, `checkNotBanned`) and
express-validator `isMongoId` format checks run before the handler bodies
and are outside the scope of the claims; handlers are modelled from the
point where the middleware has passed.
-/

/-- The four wire-level status strings of a swap request
(`pending/accepted/rejected/cancelled`). -/
inductive SwapStatus where
  | pending
  | accepted
  | rejected
  | cancelled
deriving DecidableEq, Repr

/-- `swapRequestSchema.status` enum from `src/server/database/init.js`
lines 149–153 (the `models/SwapRequest.js` schema carries the identical
list): `enum: ['pending', 'accepted', 'rejected']`.  Note that
`'cancelled'` is *not* admitted. -/
def statusEnum : List SwapStatus :=
  [SwapStatus.pending, SwapStatus.accepted, SwapStatus.rejected]

/-- A user document (`userSchema`). -/
structure User where
  id : Nat
  name : String
  email : String
  location : String
  is_public : Bool
  is_admin : Bool
  is_banned : Bool
deriving DecidableEq, Repr

/-- A skill catalog entry (`skillSchema`). -/
structure Skill where
  id : Nat
  name : String
  category : String
deriving DecidableEq, Repr

/-- A `UserSkillOffered` document: an offered (user, skill) association. -/
structure OfferedAssoc where
  id : Nat
  user_id : Nat
  skill_id : Nat
  description : String
  proficiency_level : String
deriving DecidableEq, Repr

/-- A `UserSkillWanted` document: a wanted (user, skill) association. -/
structure WantedAssoc where
  id : Nat
  user_id : Nat
  skill_id : Nat
  description : String
  priority_level : String
deriving DecidableEq, Repr

/-- A `SwapRequest` document. -/
structure Swap where
  id : Nat
  requester_id : Nat
  recipient_id : Nat
  offered_skill_id : Nat
  requested_skill_id : Nat
  status : SwapStatus
  message : String
deriving DecidableEq, Repr

/-- A `Rating` document (`ratingSchema`): the `rating` field is the
numeric score. -/
structure Rating where
  swap_id : Nat
  rater_id : Nat
  rated_user_id : Nat
  rating : Int
  feedback : String
deriving DecidableEq, Repr

/-- The persistent store: one collection per Mongoose model, plus the
source of fresh ObjectIds. -/
structure DB where
  users : List User
  skills : List Skill
  offered : List OfferedAssoc
  wanted : List WantedAssoc
  swaps : List Swap
  ratings : List Rating
  nextId : Nat
deriving DecidableEq, Repr

/-- The distinct error responses of the handlers, one constructor per
distinct (HTTP status, message) pair the routes can answer with.
`serverError` is the generic 500 issued by a route's `catch` block when an
exception (mongoose `ValidationError`, `ReferenceError`, …) is thrown. -/
inductive ApiError where
  | selfSwap                 -- 400 'Cannot create swap request with yourself'
  | recipientNotFound        -- 404 'Recipient not found'
  | recipientBanned          -- 403 'Cannot create swap request with banned user'
  | offeredSkillNotOwned     -- 400 'You do not have the offered skill'
  | requestedSkillNotOffered -- 400 'Recipient does not have the requested skill'
  | duplicatePendingRequest  -- 400 'You already have a pending swap request with this user'
  | notFound                 -- 404 'Swap request not found' / 'Offered skill not found'
  | forbidden                -- 403 'You can only …' ownership guards
  | invalidTransition        -- 400 'Can only accept/reject/cancel pending requests'
  | invalidState             -- 400 'Can only rate completed swaps'
  | duplicateRating          -- 400 'You have already rated this swap'
  | skillNotFound            -- 404 'Skill not found'
  | duplicateAssociation     -- 400 'You already have this skill listed as offered'
  | validationError          -- 400 express-validator failure (e.g. rating not in [1,5])
  | selfBanForbidden         -- 400 'Cannot ban yourself'
  | serverError              -- 500 'Server error' / 'Database error'
deriving DecidableEq, Repr

/-- `User.findById` — first document with the given `_id`. -/
def userById (db : DB) (i : Nat) : Option User :=
  db.users.find? (fun u => decide (u.id = i))

/-- `Skill.findById`. -/
def skillById (db : DB) (i : Nat) : Option Skill :=
  db.skills.find? (fun s => decide (s.id = i))

/-- `UserSkillOffered.findOne({user_id, skill_id})`. -/
def offeredFor (db : DB) (u s : Nat) : Option OfferedAssoc :=
  db.offered.find? (fun a => decide (a.user_id = u ∧ a.skill_id = s))

/-- `SwapRequest.findById`. -/
def swapById (db : DB) (i : Nat) : Option Swap :=
  db.swaps.find? (fun s => decide (s.id = i))

/-- `SwapRequest.findOne({requester_id, recipient_id, status:'pending'})`. -/
def pendingReq (db : DB) (r c : Nat) : Option Swap :=
  db.swaps.find? (fun s =>
    decide (s.requester_id = r ∧ s.recipient_id = c ∧ s.status = SwapStatus.pending))

/-- `Rating.findOne({swap_id, rater_id})`. -/
def ratingFor (db : DB) (swapId rater : Nat) : Option Rating :=
  db.ratings.find? (fun r => decide (r.swap_id = swapId ∧ r.rater_id = rater))

/-- `POST /swaps` (`src/server/Routes/swaps.js` lines 37–114; the
`../models`-wired module's copy is line-for-line identical): the six
validations in source order, then `SwapRequest.create` with the schema's
default status `'pending'`, answering 201 with the new `_id`. -/
def createSwap (db : DB) (requesterId recipientId offeredSkillId requestedSkillId : Nat)
    (message : String) : Except ApiError (DB × Nat) :=
  if requesterId = recipientId then
    .error .selfSwap
  else
    match userById db recipientId with
    | none => .error .recipientNotFound
    | some recipient =>
      if recipient.is_banned then
        .error .recipientBanned
      else if (offeredFor db requesterId offeredSkillId).isNone then
        .error .offeredSkillNotOwned
      else if (offeredFor db recipientId requestedSkillId).isNone then
        .error .requestedSkillNotOffered
      else if (pendingReq db requesterId recipientId).isSome then
        .error .duplicatePendingRequest
      else
        let sid := db.nextId
        let swap : Swap :=
          { id := sid, requester_id := requesterId, recipient_id := recipientId,
            offered_skill_id := offeredSkillId, requested_skill_id := requestedSkillId,
            status := SwapStatus.pending, message := message }
        .ok ({ db with swaps := db.swaps ++ [swap], nextId := db.nextId + 1 }, sid)

/-- `swap.save()` under mongoose validation: the `status` path is checked
against the schema enum; on violation the handler's `catch` answers 500.
A persisted update rewrites the document with the given `_id` (unique in
MongoDB, so rewriting every match is the same document). -/
def saveSwap (db : DB) (s : Swap) : Except ApiError DB :=
  if s.status ∈ statusEnum then
    .ok { db with swaps := db.swaps.map (fun t => if t.id = s.id then s else t) }
  else
    .error .serverError

/-- `PUT /swaps/:swapId/accept` (lines 201–227): recipient-only guard,
pending-only guard, then `status = 'accepted'` is saved. -/
def acceptSwap (db : DB) (callerId swapId : Nat) : Except ApiError DB :=
  match swapById db swapId with
  | none => .error .notFound
  | some swap =>
    if swap.recipient_id ≠ callerId then .error .forbidden
    else if swap.status ≠ SwapStatus.pending then .error .invalidTransition
    else saveSwap db { swap with status := SwapStatus.accepted }

/-- `PUT /swaps/:swapId/reject` (lines 244–270): symmetric to accept. -/
def rejectSwap (db : DB) (callerId swapId : Nat) : Except ApiError DB :=
  match swapById db swapId with
  | none => .error .notFound
  | some swap =>
    if swap.recipient_id ≠ callerId then .error .forbidden
    else if swap.status ≠ SwapStatus.pending then .error .invalidTransition
    else saveSwap db { swap with status := SwapStatus.rejected }

/-- `PUT /swaps/:swapId/cancel` (lines 290–316, the `database/init`-wired
module): requester-only guard, pending-only guard, then the handler sets
`swap.status = 'cancelled'` and calls `save()` — which the schema enum
(`statusEnum`) rejects. -/
def cancelSwap (db : DB) (callerId swapId : Nat) : Except ApiError DB :=
  match swapById db swapId with
  | none => .error .notFound
  | some swap =>
    if swap.requester_id ≠ callerId then .error .forbidden
    else if swap.status ≠ SwapStatus.pending then .error .invalidTransition
    else saveSwap db { swap with status := SwapStatus.cancelled }

/-- `DELETE /swaps/:swapId` (lines 595–620, the `../models`-wired module):
same guards as `cancelSwap`, then `SwapRequest.findByIdAndDelete` removes
the document (ids are unique, so removing every match is that one
document). -/
def deleteSwap (db : DB) (callerId swapId : Nat) : Except ApiError DB :=
  match swapById db swapId with
  | none => .error .notFound
  | some swap =>
    if swap.requester_id ≠ callerId then .error .forbidden
    else if swap.status ≠ SwapStatus.pending then .error .invalidTransition
    else .ok { db with swaps := db.swaps.filter (fun t => decide (t.id ≠ swapId)) }

/-- express-validator `body('rating').isInt({ min: 1, max: 5 })`. -/
def ratingValid (n : Int) : Bool :=
  decide (1 ≤ n ∧ n ≤ 5)

/-- `POST /swaps/:swapId/rate` as implemented by the `../models`-wired
module (lines 623–680), which imports the `Rating` model: score
validation, swap lookup, accepted-only guard, rated-party deduction (the
participant check), duplicate-rating guard, then `Rating.create`. -/
def rateSwap (db : DB) (callerId swapId : Nat) (score : Int) (feedback : String) :
    Except ApiError DB :=
  if ¬ ratingValid score then
    .error .validationError
  else
    match swapById db swapId with
    | none => .error .notFound
    | some swap =>
      if swap.status ≠ SwapStatus.accepted then
        .error .invalidState
      else if swap.requester_id = callerId then
        rateCreate db swapId callerId swap.recipient_id score feedback
      else if swap.recipient_id = callerId then
        rateCreate db swapId callerId swap.requester_id score feedback
      else
        .error .forbidden
where
  /-- the tail of the handler after `ratedUserId` is determined:
  `Rating.findOne({swap_id, rater_id})` then `Rating.create`. -/
  rateCreate (db : DB) (swapId raterId ratedUserId : Nat) (score : Int)
      (feedback : String) : Except ApiError DB :=
    if (ratingFor db swapId raterId).isSome then
      .error .duplicateRating
    else
      .ok { db with ratings := db.ratings ++
        [{ swap_id := swapId, rater_id := raterId, rated_user_id := ratedUserId,
           rating := score, feedback := feedback }] }

/-- `POST /swaps/:swapId/rate` as implemented by the `database/init`-wired
module (`src/server/Routes/swaps.js` lines 319–376).  That module's
require list (line 14) is `{ SwapRequest, User, UserSkillOffered }` — the
`Rating` identifier is never imported, so once the guards pass the
expression `Rating.findOne(…)` (line 353) throws a `ReferenceError`,
which the handler's `catch` turns into a 500 `'Server error'`.  The
checks before that line behave exactly as in `rateSwap`. -/
def rateSwapModuleA (db : DB) (callerId swapId : Nat) (score : Int) (_feedback : String) :
    Except ApiError DB :=
  if ¬ ratingValid score then
    .error .validationError
  else
    match swapById db swapId with
    | none => .error .notFound
    | some swap =>
      if swap.status ≠ SwapStatus.accepted then
        .error .invalidState
      else if swap.requester_id = callerId ∨ swap.recipient_id = callerId then
        -- `ratedUserId` has been assigned; `Rating.findOne` now throws.
        .error .serverError
      else
        .error .forbidden

/-- The payload `GET /admin/stats` is meant to answer with. -/
structure AdminStats where
  totalUsers : Nat
  bannedUsers : Nat
  totalSwaps : Nat
  acceptedSwaps : Nat
  pendingSwaps : Nat
  totalSkills : Nat
  averageRating : Rat
deriving DecidableEq, Repr

/-- `GET /admin/stats` (`src/server/Routes/admin.js` lines 154–187).  The
handler computes the user and swap counts (lines 159–165), but line 168
then evaluates `Skill.countDocuments()`: `Skill` is not among the
identifiers imported from `../database/init` at line 17
(`{ User, SwapRequest, AdminMessage, Rating }`), so a `ReferenceError` is
thrown before the rating aggregation or the response is reached, and the
`catch` block answers 500 `'Database error'` on every call. -/
def getStats (db : DB) : Except ApiError AdminStats :=
  let _totalUsers := db.users.length
  let _bannedUsers := (db.users.filter (fun u => u.is_banned)).length
  let _totalSwaps := db.swaps.length
  let _acceptedSwaps :=
    (db.swaps.filter (fun s => decide (s.status = SwapStatus.accepted))).length
  let _pendingSwaps :=
    (db.swaps.filter (fun s => decide (s.status = SwapStatus.pending))).length
  .error .serverError

/-- Case-insensitive substring test: the meaning of a Mongo
`{$regex: pat, $options: 'i'}` match for a plain (metacharacter-free)
pattern. -/
def containsCI (hay pat : String) : Bool :=
  decide (List.IsInfix pat.toLower.toList hay.toLower.toList)

/-- The `populate({path:'user_id', match:{is_public:true}})` join of the
browse endpoint: the populated field is non-null only when the referenced
user exists and is public. -/
def populatedPublicUser (db : DB) (uid : Nat) : Option User :=
  match userById db uid with
  | none => none
  | some u => if u.is_public then some u else none

/-- The `populate({path:'skill_id', match:{name: skillRegex}})` join: the
populated field is non-null only when the referenced skill exists and its
name matches the case-insensitive pattern. -/
def populatedMatchingSkill (db : DB) (sid : Nat) (pat : String) : Option Skill :=
  match skillById db sid with
  | none => none
  | some s => if containsCI s.name pat then some s else none

/-- The set (as a list, duplicates irrelevant) of user ids collected into
`matchingUserIds` by the browse endpoint's skill filter: owners of an
offered or wanted association whose populated user is public and whose
populated skill name matches. -/
def skillMatchUserIds (db : DB) (pat : String) : List Nat :=
  (db.offered.filterMap (fun a =>
    if (populatedPublicUser db a.user_id).isSome ∧
        (populatedMatchingSkill db a.skill_id pat).isSome then
      some a.user_id
    else none)) ++
  (db.wanted.filterMap (fun a =>
    if (populatedPublicUser db a.user_id).isSome ∧
        (populatedMatchingSkill db a.skill_id pat).isSome then
      some a.user_id
    else none))

/-- The Mongo query object built by `GET /users/browse`
(`src/server/Routes/admin.js` lines 548–576): `is_public: true` always,
plus the optional `$or` name/location search and the optional location
filter (query-string parameters default to `''`, and an empty string is
falsy in JS, i.e. the filter is absent). -/
def browseQuery (search location : String) (u : User) : Bool :=
  u.is_public &&
    (search == "" || (containsCI u.name search || containsCI u.location search)) &&
    (location == "" || containsCI u.location location)

/-- `GET /users/browse` (lines 548–666): run `browseQuery`, paginate with
`skip((page-1)*limit).limit(limit)`, then — when a skill pattern was
supplied — keep only users in `skillMatchUserIds`.  The per-user skill
annotation added afterwards does not change which users are returned, so
the result is modelled as the list of returned user documents. -/
def browse (db : DB) (page limit : Nat) (search skill location : String) : List User :=
  let users := (((db.users.filter (browseQuery search location)).drop
    ((page - 1) * limit)).take limit)
  if skill == "" then users
  else users.filter (fun u => (skillMatchUserIds db skill).contains u.id)

/-- `POST /users/me/skills/offered` (`src/server/Routes/admin.js` lines
703–737): the skill must exist in the catalog, the (user, skill) pair must
not already be offered, then a `UserSkillOffered` document is created with
the source's defaults (`description || ''`, `proficiencyLevel ||
'intermediate'`).  Answers 201; the new association's `_id` is returned
here for use by the remove endpoint. -/
def addOfferedSkill (db : DB) (userId skillId : Nat) (description proficiencyLevel : String) :
    Except ApiError (DB × Nat) :=
  match skillById db skillId with
  | none => .error .skillNotFound
  | some _ =>
    if (offeredFor db userId skillId).isSome then
      .error .duplicateAssociation
    else
      let aid := db.nextId
      let assoc : OfferedAssoc :=
        { id := aid, user_id := userId, skill_id := skillId,
          description := description,
          proficiency_level :=
            if proficiencyLevel == "" then "intermediate" else proficiencyLevel }
      .ok ({ db with offered := db.offered ++ [assoc], nextId := db.nextId + 1 }, aid)

/-- `DELETE /users/me/skills/offered/:skillId` (lines 777–795): despite
the parameter name, the route deletes by the *association* `_id`, scoped
to the caller: `UserSkillOffered.findOneAndDelete({_id, user_id})`, which
removes the first matching document. -/
def removeOfferedSkill (db : DB) (userId assocId : Nat) : Except ApiError DB :=
  match db.offered.find? (fun a => decide (a.id = assocId ∧ a.user_id = userId)) with
  | none => .error .notFound
  | some _ =>
    .ok { db with offered :=
      db.offered.eraseP (fun a => decide (a.id = assocId ∧ a.user_id = userId)) }

/-- `PUT /admin/users/:userId/ban` (lines 111–143): self-ban forbidden,
then `findByIdAndUpdate` of the `is_banned` flag (404 when the target does
not resolve). -/
def banUser (db : DB) (adminId targetId : Nat) (isBanned : Bool) : Except ApiError DB :=
  if targetId = adminId then .error .selfBanForbidden
  else
    match userById db targetId with
    | none => .error .notFound
    | some _ =>
      .ok { db with users :=
        db.users.map (fun u => if u.id = targetId then { u with is_banned := isBanned } else u) }

/-- One mutating API call, for stating system-wide invariants. -/
inductive Op where
  | create (requesterId recipientId offeredSkillId requestedSkillId : Nat) (message : String)
  | accept (callerId swapId : Nat)
  | reject (callerId swapId : Nat)
  | cancel (callerId swapId : Nat)
  | hardCancel (callerId swapId : Nat)
  | rate (callerId swapId : Nat) (score : Int) (feedback : String)
  | addOffered (userId skillId : Nat) (description proficiencyLevel : String)
  | removeOffered (userId assocId : Nat)
  | ban (adminId targetId : Nat) (isBanned : Bool)
deriving DecidableEq, Repr

/-- The persisted state after one API call: the success state on 2xx, the
unchanged state on an error response (every handler performs its single
write only as the last step of its success path). -/
def step (db : DB) : Op → DB
  | .create rq rc os rs m =>
    match createSwap db rq rc os rs m with
    | .ok (db', _) => db'
    | .error _ => db
  | .accept c i => (acceptSwap db c i).toOption.getD db
  | .reject c i => (rejectSwap db c i).toOption.getD db
  | .cancel c i => (cancelSwap db c i).toOption.getD db
  | .hardCancel c i => (deleteSwap db c i).toOption.getD db
  | .rate c i sc fb => (rateSwap db c i sc fb).toOption.getD db
  | .addOffered u s d p =>
    match addOfferedSkill db u s d p with
    | .ok (db', _) => db'
    | .error _ => db
  | .removeOffered u a => (removeOfferedSkill db u a).toOption.getD db
  | .ban a t b => (banUser db a t b).toOption.getD db

/-! ### Concrete fixtures

A small store used to evaluate the handlers on concrete inputs: Alice
(id 1) and Bob (id 2) are public users, Carol (id 3) is private; Alice
offers Python (skill 100), Bob offers Guitar (skill 101); swap 10 is
Alice's pending request to Bob. -/

def skillPython : Skill := { id := 100, name := "Python", category := "Programming" }

def skillGuitar : Skill := { id := 101, name := "Guitar", category := "Music" }

def userA : User :=
  { id := 1, name := "Alice", email := "alice@example.com", location := "Delhi",
    is_public := true, is_admin := false, is_banned := false }

def userB : User :=
  { id := 2, name := "Bob", email := "bob@example.com", location := "Mumbai",
    is_public := true, is_admin := false, is_banned := false }

def userC : User :=
  { id := 3, name := "Carol", email := "carol@example.com", location := "Pune",
    is_public := false, is_admin := false, is_banned := false }

def swapAB : Swap :=
  { id := 10, requester_id := 1, recipient_id := 2, offered_skill_id := 100,
    requested_skill_id := 101, status := SwapStatus.pending, message := "hi" }

def dbA : DB :=
  { users := [userA, userB, userC], skills := [skillPython, skillGuitar],
    offered := [{ id := 200, user_id := 1, skill_id := 100, description := "",
                  proficiency_level := "advanced" },
                { id := 201, user_id := 2, skill_id := 101, description := "",
                  proficiency_level := "intermediate" }],
    wanted := [], swaps := [swapAB], ratings := [], nextId := 300 }

/-- `dbA` after swap 10 has been accepted. -/
def dbAcc : DB := { dbA with swaps := [{ swapAB with status := SwapStatus.accepted }] }

/-! ### Shape lemmas for the success paths -/

/-- The soft-cancel handler can never answer 2xx: its success path saves
status `'cancelled'`, which `statusEnum` rejects. -/
theorem cancelSwap_no_success (db : DB) (c i : Nat) (db' : DB) :
    cancelSwap db c i ≠ .ok db' := by
  unfold cancelSwap
  cases h : swapById db i with
  | none => simp
  | some s =>
    by_cases h1 : s.requester_id ≠ c
    · simp [h1]
    · by_cases h2 : s.status ≠ SwapStatus.pending
      · simp [h1, h2]
      · simp [h1, h2, saveSwap, statusEnum]

theorem createSwap_ok_elim {db : DB} {rq rc os rs : Nat} {m : String} {db' : DB} {sid : Nat}
    (h : createSwap db rq rc os rs m = .ok (db', sid)) :
    pendingReq db rq rc = none ∧ sid = db.nextId ∧
    db' = { db with
      swaps := db.swaps ++
        [{ id := db.nextId, requester_id := rq, recipient_id := rc,
           offered_skill_id := os, requested_skill_id := rs,
           status := SwapStatus.pending, message := m }],
      nextId := db.nextId + 1 } := by
  unfold createSwap at h
  split at h
  · exact absurd h (by simp)
  · split at h
    · exact absurd h (by simp)
    · split at h
      · exact absurd h (by simp)
      · split at h
        · exact absurd h (by simp)
        · split at h
          · exact absurd h (by simp)
          · split at h
            · exact absurd h (by simp)
            · rename_i hpend
              refine ⟨Option.not_isSome_iff_eq_none.mp hpend, ?_⟩
              simp only [Except.ok.injEq, Prod.mk.injEq] at h
              exact ⟨h.2.symm, h.1.symm⟩

theorem acceptSwap_ok_elim {db : DB} {c i : Nat} {db' : DB}
    (h : acceptSwap db c i = .ok db') :
    ∃ s, swapById db i = some s ∧ s.recipient_id = c ∧ s.status = SwapStatus.pending ∧
      db' = { db with swaps := db.swaps.map (fun t =>
        if t.id = s.id then { s with status := SwapStatus.accepted } else t) } := by
  unfold acceptSwap at h
  cases hf : swapById db i with
  | none => rw [hf] at h; exact absurd h (by simp)
  | some s =>
    rw [hf] at h
    by_cases h1 : s.recipient_id ≠ c
    · simp [h1] at h
    · by_cases h2 : s.status ≠ SwapStatus.pending
      · simp [h1, h2] at h
      · simp only [h1, h2, if_neg, ite_false, not_not] at h
        refine ⟨s, rfl, not_not.mp h1, not_not.mp h2, ?_⟩
        unfold saveSwap at h
        simp only [statusEnum] at h
        simp at h
        exact h.symm

theorem rejectSwap_ok_elim {db : DB} {c i : Nat} {db' : DB}
    (h : rejectSwap db c i = .ok db') :
    ∃ s, swapById db i = some s ∧ s.recipient_id = c ∧ s.status = SwapStatus.pending ∧
      db' = { db with swaps := db.swaps.map (fun t =>
        if t.id = s.id then { s with status := SwapStatus.rejected } else t) } := by
  unfold rejectSwap at h
  cases hf : swapById db i with
  | none => rw [hf] at h; exact absurd h (by simp)
  | some s =>
    rw [hf] at h
    by_cases h1 : s.recipient_id ≠ c
    · simp [h1] at h
    · by_cases h2 : s.status ≠ SwapStatus.pending
      · simp [h1, h2] at h
      · simp only [h1, h2, if_neg, ite_false, not_not] at h
        refine ⟨s, rfl, not_not.mp h1, not_not.mp h2, ?_⟩
        unfold saveSwap at h
        simp only [statusEnum] at h
        simp at h
        exact h.symm

theorem deleteSwap_ok_elim {db : DB} {c i : Nat} {db' : DB}
    (h : deleteSwap db c i = .ok db') :
    ∃ s, swapById db i = some s ∧ s.requester_id = c ∧ s.status = SwapStatus.pending ∧
      db' = { db with swaps := db.swaps.filter (fun t => decide (t.id ≠ i)) } := by
  unfold deleteSwap at h
  cases hf : swapById db i with
  | none => rw [hf] at h; exact absurd h (by simp)
  | some s =>
    rw [hf] at h
    by_cases h1 : s.requester_id ≠ c
    · simp [h1] at h
    · by_cases h2 : s.status ≠ SwapStatus.pending
      · simp [h1, h2] at h
      · simp only [h1, h2, if_neg, ite_false, not_not] at h
        refine ⟨s, rfl, not_not.mp h1, not_not.mp h2, ?_⟩
        exact (Except.ok.inj h).symm

theorem rateSwap_ok_swaps {db : DB} {c i : Nat} {sc : Int} {fb : String} {db' : DB}
    (h : rateSwap db c i sc fb = .ok db') : db'.swaps = db.swaps := by
  unfold rateSwap at h
  by_cases hv : ¬ ratingValid sc
  · rw [if_pos hv] at h; exact absurd h (by simp)
  · rw [if_neg hv] at h
    cases hf : swapById db i with
    | none => rw [hf] at h; exact absurd h (by simp)
    | some s =>
      rw [hf] at h
      dsimp only at h
      by_cases h2 : s.status ≠ SwapStatus.accepted
      · rw [if_pos h2] at h; exact absurd h (by simp)
      · rw [if_neg h2] at h
        by_cases h3 : s.requester_id = c
        · rw [if_pos h3] at h
          unfold rateSwap.rateCreate at h
          split at h
          · exact absurd h (by simp)
          · rw [← Except.ok.inj h]
        · rw [if_neg h3] at h
          by_cases h4 : s.recipient_id = c
          · rw [if_pos h4] at h
            unfold rateSwap.rateCreate at h
            split at h
            · exact absurd h (by simp)
            · rw [← Except.ok.inj h]
          · rw [if_neg h4] at h; exact absurd h (by simp)

theorem addOfferedSkill_ok_elim {db : DB} {u s : Nat} {d p : String} {db' : DB} {aid : Nat}
    (h : addOfferedSkill db u s d p = .ok (db', aid)) :
    (skillById db s).isSome ∧ offeredFor db u s = none ∧ aid = db.nextId ∧
    db' = { db with
      offered := db.offered ++
        [{ id := db.nextId, user_id := u, skill_id := s, description := d,
           proficiency_level := (if p == "" then "intermediate" else p) }],
      nextId := db.nextId + 1 } := by
  unfold addOfferedSkill at h
  cases hs : skillById db s with
  | none => rw [hs] at h; exact absurd h (by simp)
  | some sk =>
    rw [hs] at h
    dsimp only at h
    by_cases hdup : (offeredFor db u s).isSome
    · rw [if_pos hdup] at h; exact absurd h (by simp)
    · rw [if_neg hdup] at h
      have h2 := Except.ok.inj h
      rw [Prod.mk.injEq] at h2
      exact ⟨by simp [hs], Option.not_isSome_iff_eq_none.mp hdup, h2.2.symm, h2.1.symm⟩

theorem removeOfferedSkill_ok_elim {db : DB} {u a : Nat} {db' : DB}
    (h : removeOfferedSkill db u a = .ok db') :
    db' = { db with offered :=
      db.offered.eraseP (fun x => decide (x.id = a ∧ x.user_id = u)) } := by
  unfold removeOfferedSkill at h
  split at h
  · exact absurd h (by simp)
  · exact (Except.ok.inj h).symm

theorem banUser_ok_swaps {db : DB} {adm t : Nat} {b : Bool} {db' : DB}
    (h : banUser db adm t b = .ok db') : db'.swaps = db.swaps := by
  unfold banUser at h
  split at h
  · exact absurd h (by simp)
  · split at h
    · exact absurd h (by simp)
    · rw [← Except.ok.inj h]

theorem swapById_mem {db : DB} {i : Nat} {s : Swap} (h : swapById db i = some s) :
    s ∈ db.swaps ∧ s.id = i := by
  refine ⟨List.mem_of_find?_eq_some h, ?_⟩
  have := List.find?_some h
  simpa using this

/-! ### Transition attempts on a fixed swap (claim C2's setting) -/

/-- The kind of one status-transition attempt: the two recipient
operations, and the two observed cancel implementations. -/
inductive TransKind where
  | accept
  | reject
  | cancelSoft
  | cancelHard
deriving DecidableEq, Repr

/-- Run one transition attempt `(kind, callerId)` against swap `i`:
the store after the call, and whether the call answered success. -/
def applyTrans (db : DB) (i : Nat) : TransKind × Nat → DB × Bool
  | (.accept, c) =>
    match acceptSwap db c i with
    | .ok db' => (db', true)
    | .error _ => (db, false)
  | (.reject, c) =>
    match rejectSwap db c i with
    | .ok db' => (db', true)
    | .error _ => (db, false)
  | (.cancelSoft, c) =>
    match cancelSwap db c i with
    | .ok db' => (db', true)
    | .error _ => (db, false)
  | (.cancelHard, c) =>
    match deleteSwap db c i with
    | .ok db' => (db', true)
    | .error _ => (db, false)

/-- How many calls in a sequence of transition attempts on swap `i`
answer success. -/
def countSuccesses (db : DB) (i : Nat) : List (TransKind × Nat) → Nat
  | [] => 0
  | t :: ts =>
    (if (applyTrans db i t).2 then 1 else 0) + countSuccesses (applyTrans db i t).1 i ts

/-- No document with id `i` is in status `pending`. -/
def notPendingAt (db : DB) (i : Nat) : Prop :=
  ∀ s ∈ db.swaps, s.id = i → s.status ≠ SwapStatus.pending

/-- When the looked-up swap is not pending, every transition attempt
fails (with `forbidden` for a caller failing the ownership guard, with
`invalidTransition` otherwise) and leaves the store unchanged. -/
theorem applyTrans_fail_of_found_notPending {db : DB} {i : Nat} {s : Swap}
    (hf : swapById db i = some s) (hs : s.status ≠ SwapStatus.pending)
    (k : TransKind) (c : Nat) : applyTrans db i (k, c) = (db, false) := by
  cases k
  case accept =>
    unfold applyTrans acceptSwap
    rw [hf]; dsimp only
    by_cases h1 : s.recipient_id ≠ c
    · rw [if_pos h1]
    · rw [if_neg h1, if_pos hs]
  case reject =>
    unfold applyTrans rejectSwap
    rw [hf]; dsimp only
    by_cases h1 : s.recipient_id ≠ c
    · rw [if_pos h1]
    · rw [if_neg h1, if_pos hs]
  case cancelSoft =>
    unfold applyTrans cancelSwap
    rw [hf]; dsimp only
    by_cases h1 : s.requester_id ≠ c
    · rw [if_pos h1]
    · rw [if_neg h1, if_pos hs]
  case cancelHard =>
    unfold applyTrans deleteSwap
    rw [hf]; dsimp only
    by_cases h1 : s.requester_id ≠ c
    · rw [if_pos h1]
    · rw [if_neg h1, if_pos hs]

theorem applyTrans_fail_of_notPendingAt {db : DB} {i : Nat}
    (h : notPendingAt db i) (t : TransKind × Nat) : applyTrans db i t = (db, false) := by
  obtain ⟨k, c⟩ := t
  cases hf : swapById db i with
  | some s =>
    have hm := swapById_mem hf
    exact applyTrans_fail_of_found_notPending hf (h s hm.1 hm.2) k c
  | none =>
    cases k
    case accept => simp [applyTrans, acceptSwap, hf]
    case reject => simp [applyTrans, rejectSwap, hf]
    case cancelSoft => simp [applyTrans, cancelSwap, hf]
    case cancelHard => simp [applyTrans, deleteSwap, hf]

/-- A successful transition leaves no pending document under id `i`:
accept/reject persist a terminal status on it, the hard cancel deletes
it, and the soft cancel cannot succeed at all. -/
theorem notPendingAt_of_applyTrans_success {db db' : DB} {i : Nat} {t : TransKind × Nat}
    (h : applyTrans db i t = (db', true)) : notPendingAt db' i := by
  obtain ⟨k, c⟩ := t
  cases k
  case accept =>
    unfold applyTrans at h
    dsimp only at h
    cases ha : acceptSwap db c i with
    | error e => rw [ha] at h; exact absurd (congrArg Prod.snd h) (by simp)
    | ok db1 =>
      rw [ha] at h
      obtain ⟨s, hf, _, _, hdb⟩ := acceptSwap_ok_elim ha
      have hdb' : db' = db1 := (congrArg Prod.fst h).symm
      subst hdb' hdb
      intro x hx hxi
      obtain ⟨t0, ht0, hft⟩ := List.mem_map.mp hx
      by_cases hid : t0.id = s.id
      · rw [if_pos hid] at hft; rw [← hft]; simp
      · rw [if_neg hid] at hft
        rw [← hft] at hxi
        exact absurd (hxi.trans (swapById_mem hf).2.symm) hid
  case reject =>
    unfold applyTrans at h
    dsimp only at h
    cases ha : rejectSwap db c i with
    | error e => rw [ha] at h; exact absurd (congrArg Prod.snd h) (by simp)
    | ok db1 =>
      rw [ha] at h
      obtain ⟨s, hf, _, _, hdb⟩ := rejectSwap_ok_elim ha
      have hdb' : db' = db1 := (congrArg Prod.fst h).symm
      subst hdb' hdb
      intro x hx hxi
      obtain ⟨t0, ht0, hft⟩ := List.mem_map.mp hx
      by_cases hid : t0.id = s.id
      · rw [if_pos hid] at hft; rw [← hft]; simp
      · rw [if_neg hid] at hft
        rw [← hft] at hxi
        exact absurd (hxi.trans (swapById_mem hf).2.symm) hid
  case cancelSoft =>
    unfold applyTrans at h
    dsimp only at h
    cases ha : cancelSwap db c i with
    | error e => rw [ha] at h; exact absurd (congrArg Prod.snd h) (by simp)
    | ok db1 => exact absurd ha (cancelSwap_no_success db c i db1)
  case cancelHard =>
    unfold applyTrans at h
    dsimp only at h
    cases ha : deleteSwap db c i with
    | error e => rw [ha] at h; exact absurd (congrArg Prod.snd h) (by simp)
    | ok db1 =>
      rw [ha] at h
      obtain ⟨s, hf, _, _, hdb⟩ := deleteSwap_ok_elim ha
      have hdb' : db' = db1 := (congrArg Prod.fst h).symm
      subst hdb' hdb
      intro x hx hxi
      have := (List.mem_filter.mp hx).2
      simp at this
      exact absurd hxi this

theorem countSuccesses_eq_zero {db : DB} {i : Nat} (h : notPendingAt db i)
    (ts : List (TransKind × Nat)) : countSuccesses db i ts = 0 := by
  induction ts with
  | nil => rfl
  | cons t ts ih =>
    unfold countSuccesses
    rw [applyTrans_fail_of_notPendingAt h t]
    simpa using ih

theorem countSuccesses_le_one (db : DB) (i : Nat) (ts : List (TransKind × Nat)) :
    countSuccesses db i ts ≤ 1 := by
  induction ts generalizing db with
  | nil => simp [countSuccesses]
  | cons t ts ih =>
    unfold countSuccesses
    cases hb : (applyTrans db i t).2 with
    | false => simpa using ih (applyTrans db i t).1
    | true =>
      have hsucc : applyTrans db i t = ((applyTrans db i t).1, true) := by
        rw [← hb]
      have hnp := notPendingAt_of_applyTrans_success hsucc
      rw [countSuccesses_eq_zero hnp ts]
      simp [hb]

/-! ### Claim theorems -/

/-- C2: For every swap request, at most one accept/reject/cancel call ever
answers success across any sequence of transition attempts on it; and once
its stored status is a terminal value, every transition attempt fails and
leaves the store unchanged — with error `InvalidTransition` when the
caller passes the ownership guard (the recipient for accept/reject, the
requester for either cancel implementation). -/
theorem swap_transition_exclusivity :
    (∀ (db : DB) (i : Nat) (ts : List (TransKind × Nat)), countSuccesses db i ts ≤ 1) ∧
    (∀ (db : DB) (i : Nat) (s : Swap), swapById db i = some s →
      s.status ≠ SwapStatus.pending →
      (∀ (k : TransKind) (c : Nat), applyTrans db i (k, c) = (db, false)) ∧
      acceptSwap db s.recipient_id i = .error .invalidTransition ∧
      rejectSwap db s.recipient_id i = .error .invalidTransition ∧
      cancelSwap db s.requester_id i = .error .invalidTransition ∧
      deleteSwap db s.requester_id i = .error .invalidTransition) := by
  constructor
  · exact countSuccesses_le_one
  · intro db i s hf hs
    refine ⟨fun k c => applyTrans_fail_of_found_notPending hf hs k c, ?_, ?_, ?_, ?_⟩
    · unfold acceptSwap
      rw [hf]; dsimp only
      rw [if_neg (by simp), if_pos hs]
    · unfold rejectSwap
      rw [hf]; dsimp only
      rw [if_neg (by simp), if_pos hs]
    · unfold cancelSwap
      rw [hf]; dsimp only
      rw [if_neg (by simp), if_pos hs]
    · unfold deleteSwap
      rw [hf]; dsimp only
      rw [if_neg (by simp), if_pos hs]

/-- Witness for C2 at a concrete store: swap 10 of `dbAcc` is accepted,
and a further accept attempt by its recipient answers
`InvalidTransition`. -/
theorem swap_transition_exclusivity_witness :
    countSuccesses dbAcc 10 [(TransKind.accept, 2), (TransKind.reject, 2)] ≤ 1 ∧
    acceptSwap dbAcc 2 10 = .error .invalidTransition :=
  ⟨swap_transition_exclusivity.1 dbAcc 10 [(TransKind.accept, 2), (TransKind.reject, 2)],
   (swap_transition_exclusivity.2 dbAcc 10 { swapAB with status := SwapStatus.accepted }
     (by decide) (by decide)).2.1⟩

/-- C3: `POST /swaps` applies its six validations in exactly the source
order, each with its distinct failure, and when all pass it persists a new
record with status `pending` and answers with its identifier. -/
theorem create_validation_order (db : DB) (rq rc os rs : Nat) (m : String) :
    (rq = rc → createSwap db rq rc os rs m = .error .selfSwap) ∧
    (rq ≠ rc → userById db rc = none →
      createSwap db rq rc os rs m = .error .recipientNotFound) ∧
    (∀ u, rq ≠ rc → userById db rc = some u → u.is_banned = true →
      createSwap db rq rc os rs m = .error .recipientBanned) ∧
    (∀ u, rq ≠ rc → userById db rc = some u → u.is_banned = false →
      offeredFor db rq os = none →
      createSwap db rq rc os rs m = .error .offeredSkillNotOwned) ∧
    (∀ u, rq ≠ rc → userById db rc = some u → u.is_banned = false →
      (offeredFor db rq os).isSome → offeredFor db rc rs = none →
      createSwap db rq rc os rs m = .error .requestedSkillNotOffered) ∧
    (∀ u, rq ≠ rc → userById db rc = some u → u.is_banned = false →
      (offeredFor db rq os).isSome → (offeredFor db rc rs).isSome →
      (pendingReq db rq rc).isSome →
      createSwap db rq rc os rs m = .error .duplicatePendingRequest) ∧
    (∀ u, rq ≠ rc → userById db rc = some u → u.is_banned = false →
      (offeredFor db rq os).isSome → (offeredFor db rc rs).isSome →
      pendingReq db rq rc = none →
      ∃ db', createSwap db rq rc os rs m = .ok (db', db.nextId) ∧
        ({ id := db.nextId, requester_id := rq, recipient_id := rc,
           offered_skill_id := os, requested_skill_id := rs,
           status := SwapStatus.pending, message := m } : Swap) ∈ db'.swaps) := by
  refine ⟨?_, ?_, ?_, ?_, ?_, ?_, ?_⟩
  · intro h; simp [createSwap, h]
  · intro h hu; simp [createSwap, h, hu]
  · intro u h hu hb; simp [createSwap, h, hu, hb]
  · intro u h hu hb ho; simp [createSwap, h, hu, hb, ho]
  · intro u h hu hb ho hr
    simp [createSwap, h, hu, hb, Option.isNone_iff_eq_none, hr,
      Option.not_isSome_iff_eq_none.mpr, Option.isSome_iff_ne_none.mp ho]
  · intro u h hu hb ho hr hp
    simp [createSwap, h, hu, hb, hp,
      Option.isSome_iff_ne_none.mp ho, Option.isSome_iff_ne_none.mp hr,
      Option.isNone_iff_eq_none]
  · intro u h hu hb ho hr hp
    refine ⟨{ db with
      swaps := db.swaps ++
        [{ id := db.nextId, requester_id := rq, recipient_id := rc,
           offered_skill_id := os, requested_skill_id := rs,
           status := SwapStatus.pending, message := m }],
      nextId := db.nextId + 1 }, ?_, ?_⟩
    · simp [createSwap, h, hu, hb, hp,
        Option.isSome_iff_ne_none.mp ho, Option.isSome_iff_ne_none.mp hr,
        Option.isNone_iff_eq_none]
    · simp

/-- Witness for C3: a full successful creation on the concrete store
(Bob requests a swap with Alice). -/
theorem create_validation_order_witness :
    ∃ db', createSwap dbA 2 1 101 100 "hello" = .ok (db', dbA.nextId) ∧
      ({ id := dbA.nextId, requester_id := 2, recipient_id := 1,
         offered_skill_id := 101, requested_skill_id := 100,
         status := SwapStatus.pending, message := "hello" } : Swap) ∈ db'.swaps :=
  (create_validation_order dbA 2 1 101 100 "hello").2.2.2.2.2.2 userA
    (by decide) (by decide) (by decide) (by decide) (by decide) (by decide)

/-- C1: the cancel guards behave as specified in both implementations
(`forbidden` for a non-requester, `invalidTransition` off `pending`), but
the soft-cancel success path cannot set status `'cancelled'`: the schema
enum rejects the write and the requester's valid cancel call answers 500,
while the hard-delete implementation removes the record instead. -/
theorem cancel_contract_eval :
    cancelSwap dbA 1 10 = .error .serverError ∧
    cancelSwap dbA 3 10 = .error .forbidden ∧
    cancelSwap dbAcc 1 10 = .error .invalidTransition ∧
    deleteSwap dbA 3 10 = .error .forbidden ∧
    deleteSwap dbAcc 1 10 = .error .invalidTransition ∧
    deleteSwap dbA 1 10 = .ok { dbA with swaps := [] } :=
  ⟨rfl, rfl, rfl, rfl, rfl, rfl⟩

/-- Every persisted swap's status is one the schema enum admits. -/
def statusAdmissible (db : DB) : Prop :=
  ∀ s ∈ db.swaps, s.status ∈ statusEnum

theorem statusAdmissible_step (db : DB) (op : Op) (h : statusAdmissible db) :
    statusAdmissible (step db op) := by
  cases op with
  | create rq rc os rs m =>
    dsimp only [step]
    cases hc : createSwap db rq rc os rs m with
    | error e => exact h
    | ok pr =>
      obtain ⟨db', sid⟩ := pr
      obtain ⟨-, -, hdb⟩ := createSwap_ok_elim hc
      subst hdb
      intro s hs
      rcases List.mem_append.mp hs with h1 | h1
      · exact h s h1
      · simp only [List.mem_singleton] at h1; subst h1; simp [statusEnum]
  | accept c i =>
    dsimp only [step]
    cases ha : acceptSwap db c i with
    | error e => exact h
    | ok db1 =>
      obtain ⟨s, hf, -, -, hdb⟩ := acceptSwap_ok_elim ha
      subst hdb
      intro x hx
      obtain ⟨t0, ht0, hft⟩ := List.mem_map.mp hx
      by_cases hid : t0.id = s.id
      · rw [if_pos hid] at hft; rw [← hft]; simp [statusEnum]
      · rw [if_neg hid] at hft; rw [← hft]; exact h t0 ht0
  | reject c i =>
    dsimp only [step]
    cases ha : rejectSwap db c i with
    | error e => exact h
    | ok db1 =>
      obtain ⟨s, hf, -, -, hdb⟩ := rejectSwap_ok_elim ha
      subst hdb
      intro x hx
      obtain ⟨t0, ht0, hft⟩ := List.mem_map.mp hx
      by_cases hid : t0.id = s.id
      · rw [if_pos hid] at hft; rw [← hft]; simp [statusEnum]
      · rw [if_neg hid] at hft; rw [← hft]; exact h t0 ht0
  | cancel c i =>
    dsimp only [step]
    cases ha : cancelSwap db c i with
    | error e => exact h
    | ok db1 => exact absurd ha (cancelSwap_no_success db c i db1)
  | hardCancel c i =>
    dsimp only [step]
    cases ha : deleteSwap db c i with
    | error e => exact h
    | ok db1 =>
      obtain ⟨s, hf, -, -, hdb⟩ := deleteSwap_ok_elim ha
      subst hdb
      intro x hx
      exact h x (List.mem_filter.mp hx).1
  | rate c i sc fb =>
    dsimp only [step]
    cases ha : rateSwap db c i sc fb with
    | error e => exact h
    | ok db1 =>
      intro x hx
      dsimp only [Except.toOption, Option.getD] at hx
      rw [rateSwap_ok_swaps ha] at hx
      exact h x hx
  | addOffered u sk d p =>
    dsimp only [step]
    cases ha : addOfferedSkill db u sk d p with
    | error e => exact h
    | ok pr =>
      obtain ⟨db', aid⟩ := pr
      obtain ⟨-, -, -, hdb⟩ := addOfferedSkill_ok_elim ha
      subst hdb
      exact h
  | removeOffered u a =>
    dsimp only [step]
    cases ha : removeOfferedSkill db u a with
    | error e => exact h
    | ok db1 =>
      have hdb := removeOfferedSkill_ok_elim ha
      subst hdb
      exact h
  | ban a t b =>
    dsimp only [step]
    cases ha : banUser db a t b with
    | error e => exact h
    | ok db1 =>
      intro x hx
      dsimp only [Except.toOption, Option.getD] at hx
      rw [banUser_ok_swaps ha] at hx
      exact h x hx

/-- C10: starting from a store whose swap statuses are admissible, any
sequence of API calls keeps every persisted swap's status inside the
schema enum `{pending, accepted, rejected}` — in particular no operation
ever persists a record in status `'cancelled'`. -/
theorem persisted_status_admissible (ops : List Op) (db : DB) (h : statusAdmissible db) :
    statusAdmissible (ops.foldl step db) := by
  induction ops generalizing db with
  | nil => exact h
  | cons op ops ih => exact ih (step db op) (statusAdmissible_step db op h)

/-- Witness for C10 on the concrete store, over an accept followed by a
(cancelling) attempt. -/
theorem persisted_status_admissible_witness :
    statusAdmissible dbA ∧
    statusAdmissible ([Op.accept 2 10, Op.cancel 1 10].foldl step dbA) :=
  ⟨show ∀ s ∈ dbA.swaps, s.status ∈ statusEnum by decide,
   persisted_status_admissible [Op.accept 2 10, Op.cancel 1 10] dbA
     (show ∀ s ∈ dbA.swaps, s.status ∈ statusEnum by decide)⟩

/-- All pending requests from `r` to `c` currently persisted. -/
def pendingBetween (db : DB) (r c : Nat) : List Swap :=
  db.swaps.filter (fun s =>
    decide (s.requester_id = r ∧ s.recipient_id = c ∧ s.status = SwapStatus.pending))

/-- At most one pending request per ordered (requester, recipient) pair. -/
def pendingUnique (db : DB) : Prop :=
  ∀ r c, (pendingBetween db r c).length ≤ 1

theorem pendingBetween_nil {db : DB} {r c : Nat} (h : pendingReq db r c = none) :
    pendingBetween db r c = [] := by
  unfold pendingReq at h
  unfold pendingBetween
  rw [List.filter_eq_nil_iff]
  intro a ha
  exact List.find?_eq_none.mp h a ha

theorem length_filter_map_le {α : Type} (l : List α) (f : α → α) (p : α → Bool)
    (hp : ∀ x, p (f x) = true → p x = true) :
    ((l.map f).filter p).length ≤ (l.filter p).length := by
  induction l with
  | nil => simp
  | cons a l ih =>
    rw [List.map_cons]
    by_cases hfa : p (f a) = true
    · rw [List.filter_cons_of_pos hfa, List.filter_cons_of_pos (hp a hfa)]
      exact Nat.succ_le_succ ih
    · rw [List.filter_cons_of_neg hfa]
      by_cases hpa : p a = true
      · rw [List.filter_cons_of_pos hpa]
        exact Nat.le_succ_of_le ih
      · rw [List.filter_cons_of_neg hpa]
        exact ih

theorem pendingUnique_step (db : DB) (op : Op) (h : pendingUnique db) :
    pendingUnique (step db op) := by
  cases op with
  | create rq rc os rs m =>
    dsimp only [step]
    cases hc : createSwap db rq rc os rs m with
    | error e => exact h
    | ok pr =>
      obtain ⟨db', sid⟩ := pr
      obtain ⟨hnone, -, hdb⟩ := createSwap_ok_elim hc
      subst hdb
      intro r c
      unfold pendingBetween
      dsimp only
      rw [List.filter_append, List.length_append]
      by_cases hrc : rq = r ∧ rc = c
      · obtain ⟨h1, h2⟩ := hrc
        subst h1; subst h2
        have hnil := pendingBetween_nil hnone
        unfold pendingBetween at hnil
        rw [hnil]
        simp
      · have hq : ¬ ((fun s => decide (s.requester_id = r ∧ s.recipient_id = c ∧
            s.status = SwapStatus.pending))
            ({ id := db.nextId, requester_id := rq, recipient_id := rc,
               offered_skill_id := os, requested_skill_id := rs,
               status := SwapStatus.pending, message := m } : Swap) = true) := by
          intro hq'
          have := of_decide_eq_true hq'
          exact hrc ⟨this.1, this.2.1⟩
        have hz : List.filter (fun s =>
            decide (s.requester_id = r ∧ s.recipient_id = c ∧ s.status = SwapStatus.pending))
            [({ id := db.nextId, requester_id := rq, recipient_id := rc,
                offered_skill_id := os, requested_skill_id := rs,
                status := SwapStatus.pending, message := m } : Swap)] = [] := by
          rw [List.filter_eq_nil_iff]
          intro a ha
          simp only [List.mem_singleton] at ha
          subst ha
          exact fun hq' => hq hq'
        rw [hz]
        have := h r c
        unfold pendingBetween at this
        simpa using this
  | accept c0 i =>
    dsimp only [step]
    cases ha : acceptSwap db c0 i with
    | error e => exact h
    | ok db1 =>
      obtain ⟨s, hf, -, -, hdb⟩ := acceptSwap_ok_elim ha
      subst hdb
      intro r c
      unfold pendingBetween
      refine le_trans (length_filter_map_le _ _ _ ?_) ?_
      · intro x hqx
        by_cases hid : x.id = s.id
        · rw [if_pos hid] at hqx
          exact absurd (of_decide_eq_true hqx).2.2 (by simp)
        · rwa [if_neg hid] at hqx
      · have := h r c
        unfold pendingBetween at this
        exact this
  | reject c0 i =>
    dsimp only [step]
    cases ha : rejectSwap db c0 i with
    | error e => exact h
    | ok db1 =>
      obtain ⟨s, hf, -, -, hdb⟩ := rejectSwap_ok_elim ha
      subst hdb
      intro r c
      unfold pendingBetween
      refine le_trans (length_filter_map_le _ _ _ ?_) ?_
      · intro x hqx
        by_cases hid : x.id = s.id
        · rw [if_pos hid] at hqx
          exact absurd (of_decide_eq_true hqx).2.2 (by simp)
        · rwa [if_neg hid] at hqx
      · have := h r c
        unfold pendingBetween at this
        exact this
  | cancel c0 i =>
    dsimp only [step]
    cases ha : cancelSwap db c0 i with
    | error e => exact h
    | ok db1 => exact absurd ha (cancelSwap_no_success db c0 i db1)
  | hardCancel c0 i =>
    dsimp only [step]
    cases ha : deleteSwap db c0 i with
    | error e => exact h
    | ok db1 =>
      obtain ⟨s, hf, -, -, hdb⟩ := deleteSwap_ok_elim ha
      subst hdb
      intro r c
      unfold pendingBetween
      refine le_trans (List.Sublist.length_le (List.Sublist.filter _ (List.filter_sublist _))) ?_
      have := h r c
      unfold pendingBetween at this
      exact this
  | rate c0 i sc fb =>
    dsimp only [step]
    cases ha : rateSwap db c0 i sc fb with
    | error e => exact h
    | ok db1 =>
      intro r c
      unfold pendingBetween
      dsimp only [Except.toOption, Option.getD]
      rw [rateSwap_ok_swaps ha]
      have := h r c
      unfold pendingBetween at this
      exact this
  | addOffered u sk d p =>
    dsimp only [step]
    cases ha : addOfferedSkill db u sk d p with
    | error e => exact h
    | ok pr =>
      obtain ⟨db', aid⟩ := pr
      obtain ⟨-, -, -, hdb⟩ := addOfferedSkill_ok_elim ha
      subst hdb
      exact h
  | removeOffered u a =>
    dsimp only [step]
    cases ha : removeOfferedSkill db u a with
    | error e => exact h
    | ok db1 =>
      have hdb := removeOfferedSkill_ok_elim ha
      subst hdb
      exact h
  | ban a t b =>
    dsimp only [step]
    cases ha : banUser db a t b with
    | error e => exact h
    | ok db1 =>
      intro r c
      unfold pendingBetween
      dsimp only [Except.toOption, Option.getD]
      rw [banUser_ok_swaps ha]
      have := h r c
      unfold pendingBetween at this
      exact this

/-- C4: every API call preserves "at most one pending request per ordered
(requester, recipient) pair"; when a pending request between the pair
exists, creation reports `DuplicatePendingRequest` (once the five earlier
validations pass — they are checked first, claim C3) and can never answer
success. -/
theorem pending_pair_uniqueness :
    (∀ (db : DB) (op : Op), pendingUnique db → pendingUnique (step db op)) ∧
    (∀ (db : DB) (rq rc os rs : Nat) (m : String) (u : User),
      rq ≠ rc → userById db rc = some u → u.is_banned = false →
      (offeredFor db rq os).isSome → (offeredFor db rc rs).isSome →
      (pendingReq db rq rc).isSome →
      createSwap db rq rc os rs m = .error .duplicatePendingRequest) ∧
    (∀ (db : DB) (rq rc os rs : Nat) (m : String) (db' : DB) (x : Nat),
      (pendingReq db rq rc).isSome → createSwap db rq rc os rs m ≠ .ok (db', x)) := by
  refine ⟨pendingUnique_step, ?_, ?_⟩
  · intro db rq rc os rs m u h hu hb ho hr hp
    simp [createSwap, h, hu, hb, hp,
      Option.isSome_iff_ne_none.mp ho, Option.isSome_iff_ne_none.mp hr,
      Option.isNone_iff_eq_none]
  · intro db rq rc os rs m db' x hp hok
    obtain ⟨hnone, -, -⟩ := createSwap_ok_elim hok
    rw [hnone] at hp
    exact absurd hp (by simp)

/-- Witness for C4: the invariant is preserved across an accept on the
concrete store, and a duplicate creation attempt from Alice to Bob (swap
10 is already pending between them) reports `DuplicatePendingRequest`. -/
theorem pending_pair_uniqueness_witness :
    pendingUnique (step dbA (Op.accept 2 10)) ∧
    createSwap dbA 1 2 100 101 "again" = .error .duplicatePendingRequest :=
  ⟨pending_pair_uniqueness.1 dbA (Op.accept 2 10)
     (fun r c => le_trans (List.length_filter_le _ dbA.swaps) (by decide)),
   pending_pair_uniqueness.2.1 dbA 1 2 100 101 "again" userB
     (by decide) (by decide) (by decide) (by decide) (by decide) (by decide)⟩

/-- C6 counterexample: a caller who is neither requester nor recipient of
swap 10 (still `pending`) gets `InvalidState`, not `Forbidden` — the
status check runs before the participant check in both rate
implementations. -/
theorem rate_participant_counterexample :
    rateSwap dbA 3 10 5 "" = .error .invalidState ∧
    rateSwapModuleA dbA 3 10 5 "" = .error .invalidState ∧
    ApiError.invalidState ≠ ApiError.forbidden :=
  ⟨rfl, rfl, by decide⟩

/-- C6 (amended): the rate endpoint checks the swap's status first — any
caller on a non-accepted swap gets `InvalidState`; `Forbidden` is answered
only when the swap is accepted and the caller is not a participant; an
out-of-range score is rejected by validation; on success the rated party
is the other participant and the persisted score is the submitted integer
in [1,5]. -/
theorem rate_contract (db : DB) (c i : Nat) (score : Int) (fb : String) :
    (¬ (1 ≤ score ∧ score ≤ 5) → rateSwap db c i score fb = .error .validationError) ∧
    (∀ s, 1 ≤ score → score ≤ 5 → swapById db i = some s →
      s.status ≠ SwapStatus.accepted → rateSwap db c i score fb = .error .invalidState) ∧
    (∀ s, 1 ≤ score → score ≤ 5 → swapById db i = some s →
      s.status = SwapStatus.accepted → s.requester_id ≠ c → s.recipient_id ≠ c →
      rateSwap db c i score fb = .error .forbidden) ∧
    (∀ s, 1 ≤ score → score ≤ 5 → swapById db i = some s →
      s.status = SwapStatus.accepted → s.requester_id = c → ratingFor db i c = none →
      rateSwap db c i score fb = .ok { db with
        ratings := db.ratings ++
          [{ swap_id := i, rater_id := c, rated_user_id := s.recipient_id,
             rating := score, feedback := fb }] }) ∧
    (∀ s, 1 ≤ score → score ≤ 5 → swapById db i = some s →
      s.status = SwapStatus.accepted → s.requester_id ≠ c → s.recipient_id = c →
      ratingFor db i c = none →
      rateSwap db c i score fb = .ok { db with
        ratings := db.ratings ++
          [{ swap_id := i, rater_id := c, rated_user_id := s.requester_id,
             rating := score, feedback := fb }] }) := by
  refine ⟨?_, ?_, ?_, ?_, ?_⟩
  · intro h
    unfold rateSwap
    rw [if_pos (show ¬ ratingValid score = true from fun hh => h (of_decide_eq_true hh))]
  · intro s h1 h2 hf hs
    have hvt : ratingValid score = true := decide_eq_true ⟨h1, h2⟩
    unfold rateSwap
    rw [if_neg (fun hn => hn hvt), hf]
    dsimp only
    rw [if_pos hs]
  · intro s h1 h2 hf hs h3 h4
    have hvt : ratingValid score = true := decide_eq_true ⟨h1, h2⟩
    unfold rateSwap
    rw [if_neg (fun hn => hn hvt), hf]
    dsimp only
    rw [if_neg (fun hss => hss hs), if_neg h3, if_neg h4]
  · intro s h1 h2 hf hs h3 hn
    have hvt : ratingValid score = true := decide_eq_true ⟨h1, h2⟩
    unfold rateSwap
    rw [if_neg (fun hnn => hnn hvt), hf]
    dsimp only
    rw [if_neg (fun hss => hss hs), if_pos h3]
    unfold rateSwap.rateCreate
    rw [if_neg (by simp [hn])]
  · intro s h1 h2 hf hs h3 h4 hn
    have hvt : ratingValid score = true := decide_eq_true ⟨h1, h2⟩
    unfold rateSwap
    rw [if_neg (fun hnn => hnn hvt), hf]
    dsimp only
    rw [if_neg (fun hss => hss hs), if_neg h3, if_pos h4]
    unfold rateSwap.rateCreate
    rw [if_neg (by simp [hn])]

/-- Witness for C6 (amended): Alice rates her accepted swap with Bob; the
persisted rating names Bob as the rated party. -/
theorem rate_contract_witness :
    rateSwap dbAcc 1 10 5 "well" = .ok { dbAcc with
      ratings := [{ swap_id := 10, rater_id := 1, rated_user_id := 2,
                    rating := 5, feedback := "well" }] } :=
  (rate_contract dbAcc 1 10 5 "well").2.2.2.1
    { swapAB with status := SwapStatus.accepted }
    (by decide) (by decide) (by decide) (by decide) (by decide) (by decide)

/-- C5: in the `database/init`-wired swaps module a participant's *first*
rating submission on an accepted swap answers 500 (the module references
the never-imported `Rating` model), so no rating is ever persisted by it;
the `../models`-wired module persists the first rating and answers
`DuplicateRating` to the second, as the claim describes. -/
theorem rating_conflict_eval :
    rateSwapModuleA dbAcc 1 10 5 "good" = .error .serverError ∧
    rateSwap dbAcc 1 10 5 "good" = .ok { dbAcc with
      ratings := [{ swap_id := 10, rater_id := 1, rated_user_id := 2,
                    rating := 5, feedback := "good" }] } ∧
    rateSwap { dbAcc with
      ratings := [{ swap_id := 10, rater_id := 1, rated_user_id := 2,
                    rating := 5, feedback := "good" }] } 1 10 4 "again" =
      .error .duplicateRating :=
  ⟨rfl, rfl, rfl⟩

/-- C7: `GET /admin/stats` never returns its aggregates — the admin
router never imports `Skill`, so every call throws and answers 500. -/
theorem admin_stats_crashes (db : DB) : getStats db = .error .serverError := rfl

/-- C8: every user in a browse result is public — the query object is
built over `is_public: true` unconditionally, so no combination of
search, location, or skill filters can surface a private profile. -/
theorem browse_only_public (db : DB) (page limit : Nat) (search skill location : String)
    (u : User) (h : u ∈ browse db page limit search skill location) :
    u.is_public = true := by
  unfold browse at h
  have hmem : u ∈ ((db.users.filter (browseQuery search location)).drop
      ((page - 1) * limit)).take limit := by
    by_cases hs : skill == ""
    · rwa [if_pos hs] at h
    · rw [if_neg hs] at h
      exact (List.mem_filter.mp h).1
  have h1 := List.drop_subset _ _ (List.take_subset _ _ hmem)
  have h2 := (List.mem_filter.mp h1).2
  unfold browseQuery at h2
  simp only [Bool.and_eq_true] at h2
  exact h2.1.1

/-- Witness for C8: Alice appears in an unfiltered browse of the concrete
store and is indeed public (private Carol is never listed). -/
theorem browse_only_public_witness :
    userA ∈ browse dbA 1 10 "" "" "" ∧ userA.is_public = true :=
  ⟨by decide, browse_only_public dbA 1 10 "" "" "" userA (by decide)⟩

theorem find?_append_of_none {α : Type} {l₁ l₂ : List α} {p : α → Bool}
    (h : l₁.find? p = none) : (l₁ ++ l₂).find? p = l₂.find? p := by
  induction l₁ with
  | nil => simp
  | cons a l ih =>
    rw [List.find?_cons] at h
    cases hpa : p a with
    | true => rw [hpa] at h; exact absurd h (by simp)
    | false =>
      rw [hpa] at h
      rw [List.cons_append, List.find?_cons, hpa]
      exact ih h

theorem eraseP_append_singleton {α : Type} (l : List α) (x : α) (q : α → Bool)
    (hl : ∀ a ∈ l, ¬ q a = true) (hx : q x = true) :
    (l ++ [x]).eraseP q = l := by
  induction l with
  | nil => simp [List.eraseP_cons, hx]
  | cons a l ih =>
    have ha : q a = false := Bool.not_eq_true _ |>.mp (hl a (List.mem_cons_self a l))
    rw [List.cons_append, List.eraseP_cons, ha]
    simp only [cond_false]
    rw [ih (fun b hb => hl b (List.mem_cons_of_mem a hb))]

/-- C9: adding an offered (user, skill) association succeeds when the
skill exists and the pair is new, answers `SkillNotFound` for an unknown
skill id and `DuplicateAssociation` (the Conflict) for an existing pair;
after the association is removed (the delete route keys on the
association's own id, scoped to the caller), adding it again succeeds. -/
theorem offered_assoc_lifecycle (db : DB) (userId skillId : Nat) (d p : String)
    (hskill : (skillById db skillId).isSome = true)
    (hnone : offeredFor db userId skillId = none)
    (hfresh : ∀ a ∈ db.offered, a.id ≠ db.nextId) :
    (∃ db1 db2 : DB,
      addOfferedSkill db userId skillId d p = .ok (db1, db.nextId) ∧
      addOfferedSkill db1 userId skillId d p = .error .duplicateAssociation ∧
      removeOfferedSkill db1 userId db.nextId = .ok db2 ∧
      db2.offered = db.offered ∧
      (∃ db3 : DB, addOfferedSkill db2 userId skillId d p = .ok (db3, db2.nextId))) ∧
    (∀ (db0 : DB) (u0 s0 : Nat) (d0 p0 : String), skillById db0 s0 = none →
      addOfferedSkill db0 u0 s0 d0 p0 = .error .skillNotFound) ∧
    (∀ (db0 : DB) (u0 s0 : Nat) (d0 p0 : String),
      (skillById db0 s0).isSome = true → (offeredFor db0 u0 s0).isSome = true →
      addOfferedSkill db0 u0 s0 d0 p0 = .error .duplicateAssociation) := by
  obtain ⟨sk, hsk⟩ := Option.isSome_iff_exists.mp hskill
  have part3 : ∀ (db0 : DB) (u0 s0 : Nat) (d0 p0 : String),
      (skillById db0 s0).isSome = true → (offeredFor db0 u0 s0).isSome = true →
      addOfferedSkill db0 u0 s0 d0 p0 = .error .duplicateAssociation := by
    intro db0 u0 s0 d0 p0 hs0 hd0
    obtain ⟨sk0, hsk0⟩ := Option.isSome_iff_exists.mp hs0
    unfold addOfferedSkill
    rw [hsk0]
    dsimp only
    rw [if_pos hd0]
  refine ⟨?_, ?_, part3⟩
  · refine ⟨{ db with
        offered := db.offered ++
          [{ id := db.nextId, user_id := userId, skill_id := skillId, description := d,
             proficiency_level := (if p == "" then "intermediate" else p) }],
        nextId := db.nextId + 1 },
      { db with nextId := db.nextId + 1 }, ?_, ?_, ?_, rfl, ?_⟩
    · unfold addOfferedSkill
      rw [hsk]
      dsimp only
      rw [if_neg (show ¬ (offeredFor db userId skillId).isSome = true by simp [hnone])]
    · apply part3
      · exact hskill
      · show (List.find? _ (db.offered ++
          [{ id := db.nextId, user_id := userId, skill_id := skillId, description := d,
             proficiency_level := (if p == "" then "intermediate" else p) }])).isSome = true
        rw [find?_append_of_none (show db.offered.find?
          (fun a => decide (a.user_id = userId ∧ a.skill_id = skillId)) = none from hnone)]
        simp
    · unfold removeOfferedSkill
      dsimp only
      have hqnone : db.offered.find?
          (fun a => decide (a.id = db.nextId ∧ a.user_id = userId)) = none := by
        rw [List.find?_eq_none]
        intro a ha hx
        exact hfresh a ha (of_decide_eq_true hx).1
      rw [find?_append_of_none hqnone]
      have hq : (fun a => decide (a.id = db.nextId ∧ a.user_id = userId))
          ({ id := db.nextId, user_id := userId, skill_id := skillId, description := d,
             proficiency_level := (if p == "" then "intermediate" else p) } :
            OfferedAssoc) = true := by simp
      have hfound : List.find? (fun a => decide (a.id = db.nextId ∧ a.user_id = userId))
          [({ id := db.nextId, user_id := userId, skill_id := skillId, description := d,
              proficiency_level := (if p == "" then "intermediate" else p) } :
            OfferedAssoc)] =
          some { id := db.nextId, user_id := userId, skill_id := skillId, description := d,
                 proficiency_level := (if p == "" then "intermediate" else p) } := by
        simp
      rw [hfound]
      dsimp only
      rw [eraseP_append_singleton db.offered _ _
        (fun a ha hx => hfresh a ha (of_decide_eq_true hx).1) hq]
    · refine ⟨{ db with
        offered := db.offered ++
          [{ id := db.nextId + 1, user_id := userId, skill_id := skillId, description := d,
             proficiency_level := (if p == "" then "intermediate" else p) }],
        nextId := db.nextId + 1 + 1 }, ?_⟩
      unfold addOfferedSkill
      rw [show skillById { db with nextId := db.nextId + 1 } skillId = some sk from hsk]
      dsimp only
      rw [if_neg (show ¬ (offeredFor { db with nextId := db.nextId + 1 }
        userId skillId).isSome = true by
          simp [show offeredFor { db with nextId := db.nextId + 1 } userId skillId = none
            from hnone])]
  · intro db0 u0 s0 d0 p0 hnf
    unfold addOfferedSkill
    rw [hnf]

/-- Witness for C9: Bob adds Python (which he does not yet offer) on the
concrete store, hits the duplicate guard on a second add, removes the
association, and adds it again. -/
theorem offered_assoc_lifecycle_witness :
    ∃ db1 db2 : DB,
      addOfferedSkill dbA 2 100 "" "" = .ok (db1, dbA.nextId) ∧
      addOfferedSkill db1 2 100 "" "" = .error .duplicateAssociation ∧
      removeOfferedSkill db1 2 dbA.nextId = .ok db2 ∧
      db2.offered = dbA.offered ∧
      (∃ db3 : DB, addOfferedSkill db2 2 100 "" "" = .ok (db3, db2.nextId)) :=
  (offered_assoc_lifecycle dbA 2 100 "" "" (by decide) (by decide) (by decide)).1
